import Mathlib

/-!
Verification of the `NextFrameSetupSystem` of `rhusics-ecs`
(`src/rhusics-ecs/src/physics/systems/next_frame.rs`).

The system is generic over a positional space, rotation representation,
inertia, angular velocity and scalar type; we mirror that genericity by
parameterising every definition over abstract carrier types `S Lin A I R Pt`
together with a record `Ops` of the algebraic operations the Rust trait
bounds provide (`VectorSpace`, `Rotation`, `ApplyAngular`, `Inertia`, ...).

ECS storages are modelled as functions from entity ids (`Nat`) to optional
component values; a `specs` join over several storages iterates exactly the
entities present in all of them, in an unspecified order, so each phase is a
left fold of a per-entity step over an entity list, where the step is a
no-op unless the entity is present in every joined storage.

The bodies of `next_frame_integration` and `next_frame_pose` live in the
`rhusics-core` crate, which is not part of the sources; their per-entity
update formulas are modelled from the spec (see the doc comments below).
Which storages each of them is joined over, and the order of the two phases,
are taken from the `run` function in the source.
-/

namespace Rhusics

/-- The algebraic capability contracts the Rust generics provide:
vector-space operations on the linear type, scalar multiplication on the
angular type, inverse inertia application, point translation, and the
rotation representation's own composition rule with `ApplyAngular`. -/
structure Ops (S Lin A I R Pt : Type) where
  addLin : Lin → Lin → Lin
  mulLinS : Lin → S → Lin
  divLinS : Lin → S → Lin
  zeroLin : Lin
  addA : A → A → A
  mulAS : A → S → A
  zeroA : A
  inverseApply : I → R → A → A
  addPt : Pt → Lin → Pt
  applyAngular : A → S → R
  compose : R → R → R

/-- Linear and angular velocity (`Velocity<L, A>` in rhusics-core). -/
structure Velocity (Lin A : Type) where
  linear : Lin
  angular : A
deriving DecidableEq

/-- A pose: position and orientation (the `Pose<P, R>` trait; `BodyPose`). -/
structure BodyPose (Pt R : Type) where
  position : Pt
  orientation : R
deriving DecidableEq

/-- Accumulated force and torque (`ForceAccumulator<F, A>`). -/
structure ForceAccumulator (Lin A : Type) where
  force : Lin
  torque : A
deriving DecidableEq

/-- Mass and inertia (`Mass<S, I>`). -/
structure Mass (S I : Type) where
  mass : S
  inertia : I
deriving DecidableEq

/-- Wrapper for next-frame values (`NextFrame<T>`). -/
structure NextFrame (T : Type) where
  value : T
deriving DecidableEq

/-- Global world parameters (`WorldParameters<L, S>`); ambient acceleration.
Damping is not part of the spec's minimal contract and is not modelled. -/
structure WorldParameters (Lin : Type) where
  gravity : Lin
deriving DecidableEq

/-- The ECS world as seen through the system's `SystemData`: two global
read resources (`Read<D>` time and `Read<WorldParameters>`), three read
storages (`PhysicalEntity` marker, `Mass`, current pose `T`) and three write
storages (`NextFrame<Velocity>`, `NextFrame<T>`, `ForceAccumulator`).
Storages are entity-indexed partial maps; the marker is presence only. -/
structure WorldState (S Lin A I R Pt : Type) where
  delta_seconds : S
  params : WorldParameters Lin
  physical_entity : Nat → Bool
  masses : Nat → Option (Mass S I)
  poses : Nat → Option (BodyPose Pt R)
  next_velocities : Nat → Option (NextFrame (Velocity Lin A))
  next_poses : Nat → Option (NextFrame (BodyPose Pt R))
  forces : Nat → Option (ForceAccumulator Lin A)

/-- Point update of an entity-indexed storage. -/
def updateStore {X : Type} (s : Nat → Option X) (e : Nat) (v : X) :
    Nat → Option X :=
  fun x => if x = e then some v else s x

variable {S Lin A I R Pt : Type}

/-- Modelled from the spec: the per-entity output of rhusics-core's
`next_frame_integration`, whose body is not in the sources. The row exists
exactly when the entity is present in every storage of the source join
`(&mut next_velocities, &next_poses, &mut forces, &masses, &entities)`;
the output is the semi-implicit Euler velocity step
`linear + (force / mass + gravity) * dt`, `angular + I⁻¹(torque) * dt`
(the inverse inertia applied at the joined next-frame pose's orientation),
together with the zeroed accumulator. `none` means the join skips the
entity and nothing is written. -/
def integ_result (ops : Ops S Lin A I R Pt) (w : WorldState S Lin A I R Pt)
    (e : Nat) :
    Option (NextFrame (Velocity Lin A) × ForceAccumulator Lin A) :=
  if w.physical_entity e then
    match w.masses e, w.next_velocities e, w.next_poses e, w.forces e with
    | some m, some nv, some np, some f =>
      some
        (⟨⟨ops.addLin nv.value.linear
              (ops.mulLinS
                (ops.addLin (ops.divLinS f.force m.mass) w.params.gravity)
                w.delta_seconds),
           ops.addA nv.value.angular
              (ops.mulAS
                (ops.inverseApply m.inertia np.value.orientation f.torque)
                w.delta_seconds)⟩⟩,
         ⟨ops.zeroLin, ops.zeroA⟩)
    | _, _, _, _ => none
  else none

/-- One iteration of the force-integration loop: write the computed
next-frame velocity and the zeroed accumulator back to the entity's own
slots, or leave the world untouched when the join skips the entity. -/
def next_frame_integration_step (ops : Ops S Lin A I R Pt)
    (w : WorldState S Lin A I R Pt) (e : Nat) : WorldState S Lin A I R Pt :=
  match integ_result ops w e with
  | some (nv, f) =>
    { w with
      next_velocities := updateStore w.next_velocities e nv
      forces := updateStore w.forces e f }
  | none => w

/-- The force-integration phase: fold the per-entity step over the joined
entities in the (unspecified) iteration order `es`. -/
def next_frame_integration (ops : Ops S Lin A I R Pt) (es : List Nat)
    (w : WorldState S Lin A I R Pt) : WorldState S Lin A I R Pt :=
  es.foldl (next_frame_integration_step ops) w

/-- Modelled from the spec: the per-entity output of rhusics-core's
`next_frame_pose`, whose body is not in the sources. The row exists exactly
when the entity is present in every storage of the source join
`(&next_velocities, &poses, &mut next_poses, &entities)`; the output pose is
`current_position + next_velocity.linear * dt` and the current orientation
composed with the rotation increment `apply_angular(next_velocity.angular,
dt)` under the rotation representation's own composition rule. -/
def pose_result (ops : Ops S Lin A I R Pt) (w : WorldState S Lin A I R Pt)
    (e : Nat) : Option (NextFrame (BodyPose Pt R)) :=
  if w.physical_entity e then
    match w.next_velocities e, w.poses e, w.next_poses e with
    | some nv, some p, some _ =>
      some
        ⟨⟨ops.addPt p.position (ops.mulLinS nv.value.linear w.delta_seconds),
          ops.compose p.orientation
            (ops.applyAngular nv.value.angular w.delta_seconds)⟩⟩
    | _, _, _ => none
  else none

/-- One iteration of the pose-integration loop. -/
def next_frame_pose_step (ops : Ops S Lin A I R Pt)
    (w : WorldState S Lin A I R Pt) (e : Nat) : WorldState S Lin A I R Pt :=
  match pose_result ops w e with
  | some np => { w with next_poses := updateStore w.next_poses e np }
  | none => w

/-- The pose-integration phase. -/
def next_frame_pose (ops : Ops S Lin A I R Pt) (es : List Nat)
    (w : WorldState S Lin A I R Pt) : WorldState S Lin A I R Pt :=
  es.foldl (next_frame_pose_step ops) w

/-- The system value: its single field mirrors the `PhantomData` marker —
it carries no data. -/
structure NextFrameSetupSystem where
  m : Unit

/-- `System::run` for `NextFrameSetupSystem`: force integration over the
full joined set, then pose integration, in that order; `&mut self` is
returned unchanged alongside the mutated storages. -/
def NextFrameSetupSystem.run (s : NextFrameSetupSystem)
    (ops : Ops S Lin A I R Pt) (es : List Nat)
    (w : WorldState S Lin A I R Pt) :
    NextFrameSetupSystem × WorldState S Lin A I R Pt :=
  (s, next_frame_pose ops es (next_frame_integration ops es w))

/-- One invocation of the system, viewed as a transformation of the world. -/
def runWorld (ops : Ops S Lin A I R Pt) (es : List Nat)
    (w : WorldState S Lin A I R Pt) : WorldState S Lin A I R Pt :=
  (NextFrameSetupSystem.run ⟨()⟩ ops es w).2

/-- The next-frame velocity slot of entity `x` after the force phase has
visited `x` once: the computed row if the join includes `x`, else the old
value. -/
def integ_nv_after (ops : Ops S Lin A I R Pt) (w : WorldState S Lin A I R Pt)
    (x : Nat) : Option (NextFrame (Velocity Lin A)) :=
  match integ_result ops w x with
  | some (nv, _) => some nv
  | none => w.next_velocities x

/-- The force-accumulator slot of entity `x` after the force phase has
visited `x` once. -/
def integ_forces_after (ops : Ops S Lin A I R Pt)
    (w : WorldState S Lin A I R Pt) (x : Nat) :
    Option (ForceAccumulator Lin A) :=
  match integ_result ops w x with
  | some (_, f) => some f
  | none => w.forces x

/-- The next-frame pose slot of entity `x` after the pose phase has visited
`x` once. -/
def pose_np_after (ops : Ops S Lin A I R Pt) (w : WorldState S Lin A I R Pt)
    (x : Nat) : Option (NextFrame (BodyPose Pt R)) :=
  match pose_result ops w x with
  | some np => some np
  | none => w.next_poses x

variable (ops : Ops S Lin A I R Pt) (w : WorldState S Lin A I R Pt)

theorem integ_step_delta (e : Nat) :
    (next_frame_integration_step ops w e).delta_seconds = w.delta_seconds := by
  unfold next_frame_integration_step; split <;> rfl

theorem integ_step_params (e : Nat) :
    (next_frame_integration_step ops w e).params = w.params := by
  unfold next_frame_integration_step; split <;> rfl

theorem integ_step_marker (e : Nat) :
    (next_frame_integration_step ops w e).physical_entity =
      w.physical_entity := by
  unfold next_frame_integration_step; split <;> rfl

theorem integ_step_masses (e : Nat) :
    (next_frame_integration_step ops w e).masses = w.masses := by
  unfold next_frame_integration_step; split <;> rfl

theorem integ_step_poses (e : Nat) :
    (next_frame_integration_step ops w e).poses = w.poses := by
  unfold next_frame_integration_step; split <;> rfl

theorem integ_step_next_poses (e : Nat) :
    (next_frame_integration_step ops w e).next_poses = w.next_poses := by
  unfold next_frame_integration_step; split <;> rfl

theorem integ_step_nv_ne {x e : Nat} (h : x ≠ e) :
    (next_frame_integration_step ops w e).next_velocities x =
      w.next_velocities x := by
  unfold next_frame_integration_step; split <;> simp [updateStore, h]

theorem integ_step_forces_ne {x e : Nat} (h : x ≠ e) :
    (next_frame_integration_step ops w e).forces x = w.forces x := by
  unfold next_frame_integration_step; split <;> simp [updateStore, h]

theorem integ_step_nv_self (e : Nat) :
    (next_frame_integration_step ops w e).next_velocities e =
      integ_nv_after ops w e := by
  unfold next_frame_integration_step integ_nv_after
  split <;> simp_all [updateStore]

theorem integ_step_forces_self (e : Nat) :
    (next_frame_integration_step ops w e).forces e =
      integ_forces_after ops w e := by
  unfold next_frame_integration_step integ_forces_after
  split <;> simp_all [updateStore]

theorem integ_result_congr (w' : WorldState S Lin A I R Pt) (e : Nat)
    (h1 : w'.physical_entity e = w.physical_entity e)
    (h2 : w'.masses e = w.masses e)
    (h3 : w'.next_velocities e = w.next_velocities e)
    (h4 : w'.next_poses e = w.next_poses e)
    (h5 : w'.forces e = w.forces e)
    (h6 : w'.params = w.params)
    (h7 : w'.delta_seconds = w.delta_seconds) :
    integ_result ops w' e = integ_result ops w e := by
  unfold integ_result; rw [h1, h2, h3, h4, h5, h6, h7]

theorem integ_nv_after_step {x a : Nat} (h : x ≠ a) :
    integ_nv_after ops (next_frame_integration_step ops w a) x =
      integ_nv_after ops w x := by
  unfold integ_nv_after
  rw [integ_result_congr ops w (next_frame_integration_step ops w a) x
      (by rw [integ_step_marker]) (by rw [integ_step_masses])
      (integ_step_nv_ne ops w h) (by rw [integ_step_next_poses])
      (integ_step_forces_ne ops w h) (integ_step_params ops w a)
      (integ_step_delta ops w a),
    integ_step_nv_ne ops w h]

theorem next_frame_integration_misc (es : List Nat) :
    (next_frame_integration ops es w).delta_seconds = w.delta_seconds ∧
    (next_frame_integration ops es w).params = w.params ∧
    (next_frame_integration ops es w).physical_entity = w.physical_entity ∧
    (next_frame_integration ops es w).masses = w.masses ∧
    (next_frame_integration ops es w).poses = w.poses ∧
    (next_frame_integration ops es w).next_poses = w.next_poses := by
  induction es generalizing w with
  | nil => exact ⟨rfl, rfl, rfl, rfl, rfl, rfl⟩
  | cons a rest ih =>
    have hfold : next_frame_integration ops (a :: rest) w =
        next_frame_integration ops rest
          (next_frame_integration_step ops w a) := rfl
    rw [hfold]
    obtain ⟨h1, h2, h3, h4, h5, h6⟩ := ih (next_frame_integration_step ops w a)
    exact ⟨h1.trans (integ_step_delta ops w a),
      h2.trans (integ_step_params ops w a),
      h3.trans (integ_step_marker ops w a),
      h4.trans (integ_step_masses ops w a),
      h5.trans (integ_step_poses ops w a),
      h6.trans (integ_step_next_poses ops w a)⟩

theorem integ_forces_after_step {x a : Nat} (h : x ≠ a) :
    integ_forces_after ops (next_frame_integration_step ops w a) x =
      integ_forces_after ops w x := by
  unfold integ_forces_after
  rw [integ_result_congr ops w (next_frame_integration_step ops w a) x
      (by rw [integ_step_marker]) (by rw [integ_step_masses])
      (integ_step_nv_ne ops w h) (by rw [integ_step_next_poses])
      (integ_step_forces_ne ops w h) (integ_step_params ops w a)
      (integ_step_delta ops w a),
    integ_step_forces_ne ops w h]

theorem next_frame_integration_nv (es : List Nat) (x : Nat) :
    ∀ w : WorldState S Lin A I R Pt, es.Nodup →
      (next_frame_integration ops es w).next_velocities x =
        if x ∈ es then integ_nv_after ops w x else w.next_velocities x := by
  induction es with
  | nil => intro w _; simp [next_frame_integration]
  | cons a rest ih =>
    intro w hnd
    obtain ⟨ha, hrest⟩ := List.nodup_cons.mp hnd
    have hfold : next_frame_integration ops (a :: rest) w =
        next_frame_integration ops rest
          (next_frame_integration_step ops w a) := rfl
    rw [hfold, ih (next_frame_integration_step ops w a) hrest]
    by_cases hxa : x = a
    · subst hxa
      simp [ha, integ_step_nv_self ops w x]
    · by_cases hxr : x ∈ rest
      · simp [hxr, hxa, integ_nv_after_step ops w hxa]
      · simp [hxr, hxa, integ_step_nv_ne ops w hxa]

theorem next_frame_integration_forces (es : List Nat) (x : Nat) :
    ∀ w : WorldState S Lin A I R Pt, es.Nodup →
      (next_frame_integration ops es w).forces x =
        if x ∈ es then integ_forces_after ops w x else w.forces x := by
  induction es with
  | nil => intro w _; simp [next_frame_integration]
  | cons a rest ih =>
    intro w hnd
    obtain ⟨ha, hrest⟩ := List.nodup_cons.mp hnd
    have hfold : next_frame_integration ops (a :: rest) w =
        next_frame_integration ops rest
          (next_frame_integration_step ops w a) := rfl
    rw [hfold, ih (next_frame_integration_step ops w a) hrest]
    by_cases hxa : x = a
    · subst hxa
      simp [ha, integ_step_forces_self ops w x]
    · by_cases hxr : x ∈ rest
      · simp [hxr, hxa, integ_forces_after_step ops w hxa]
      · simp [hxr, hxa, integ_step_forces_ne ops w hxa]

theorem pose_step_delta (e : Nat) :
    (next_frame_pose_step ops w e).delta_seconds = w.delta_seconds := by
  unfold next_frame_pose_step; split <;> rfl

theorem pose_step_params (e : Nat) :
    (next_frame_pose_step ops w e).params = w.params := by
  unfold next_frame_pose_step; split <;> rfl

theorem pose_step_marker (e : Nat) :
    (next_frame_pose_step ops w e).physical_entity = w.physical_entity := by
  unfold next_frame_pose_step; split <;> rfl

theorem pose_step_masses (e : Nat) :
    (next_frame_pose_step ops w e).masses = w.masses := by
  unfold next_frame_pose_step; split <;> rfl

theorem pose_step_poses (e : Nat) :
    (next_frame_pose_step ops w e).poses = w.poses := by
  unfold next_frame_pose_step; split <;> rfl

theorem pose_step_nv (e : Nat) :
    (next_frame_pose_step ops w e).next_velocities = w.next_velocities := by
  unfold next_frame_pose_step; split <;> rfl

theorem pose_step_forces (e : Nat) :
    (next_frame_pose_step ops w e).forces = w.forces := by
  unfold next_frame_pose_step; split <;> rfl

theorem pose_step_np_ne {x e : Nat} (h : x ≠ e) :
    (next_frame_pose_step ops w e).next_poses x = w.next_poses x := by
  unfold next_frame_pose_step; split <;> simp [updateStore, h]

theorem pose_step_np_self (e : Nat) :
    (next_frame_pose_step ops w e).next_poses e = pose_np_after ops w e := by
  unfold next_frame_pose_step pose_np_after
  split <;> simp_all [updateStore]

theorem pose_result_congr (w' : WorldState S Lin A I R Pt) (e : Nat)
    (h1 : w'.physical_entity e = w.physical_entity e)
    (h2 : w'.next_velocities e = w.next_velocities e)
    (h3 : w'.poses e = w.poses e)
    (h4 : w'.next_poses e = w.next_poses e)
    (h5 : w'.delta_seconds = w.delta_seconds) :
    pose_result ops w' e = pose_result ops w e := by
  unfold pose_result; rw [h1, h2, h3, h4, h5]

theorem pose_np_after_step {x a : Nat} (h : x ≠ a) :
    pose_np_after ops (next_frame_pose_step ops w a) x =
      pose_np_after ops w x := by
  unfold pose_np_after
  rw [pose_result_congr ops w (next_frame_pose_step ops w a) x
      (by rw [pose_step_marker]) (by rw [pose_step_nv])
      (by rw [pose_step_poses]) (pose_step_np_ne ops w h)
      (pose_step_delta ops w a),
    pose_step_np_ne ops w h]

theorem next_frame_pose_misc (es : List Nat) :
    (next_frame_pose ops es w).delta_seconds = w.delta_seconds ∧
    (next_frame_pose ops es w).params = w.params ∧
    (next_frame_pose ops es w).physical_entity = w.physical_entity ∧
    (next_frame_pose ops es w).masses = w.masses ∧
    (next_frame_pose ops es w).poses = w.poses ∧
    (next_frame_pose ops es w).next_velocities = w.next_velocities ∧
    (next_frame_pose ops es w).forces = w.forces := by
  induction es generalizing w with
  | nil => exact ⟨rfl, rfl, rfl, rfl, rfl, rfl, rfl⟩
  | cons a rest ih =>
    have hfold : next_frame_pose ops (a :: rest) w =
        next_frame_pose ops rest (next_frame_pose_step ops w a) := rfl
    rw [hfold]
    obtain ⟨h1, h2, h3, h4, h5, h6, h7⟩ := ih (next_frame_pose_step ops w a)
    exact ⟨h1.trans (pose_step_delta ops w a),
      h2.trans (pose_step_params ops w a),
      h3.trans (pose_step_marker ops w a),
      h4.trans (pose_step_masses ops w a),
      h5.trans (pose_step_poses ops w a),
      h6.trans (pose_step_nv ops w a),
      h7.trans (pose_step_forces ops w a)⟩

theorem next_frame_pose_np (es : List Nat) (x : Nat) :
    ∀ w : WorldState S Lin A I R Pt, es.Nodup →
      (next_frame_pose ops es w).next_poses x =
        if x ∈ es then pose_np_after ops w x else w.next_poses x := by
  induction es with
  | nil => intro w _; simp [next_frame_pose]
  | cons a rest ih =>
    intro w hnd
    obtain ⟨ha, hrest⟩ := List.nodup_cons.mp hnd
    have hfold : next_frame_pose ops (a :: rest) w =
        next_frame_pose ops rest (next_frame_pose_step ops w a) := rfl
    rw [hfold, ih (next_frame_pose_step ops w a) hrest]
    by_cases hxa : x = a
    · subst hxa
      simp [ha, pose_step_np_self ops w x]
    · by_cases hxr : x ∈ rest
      · simp [hxr, hxa, pose_np_after_step ops w hxa]
      · simp [hxr, hxa, pose_step_np_ne ops w hxa]

theorem runWorld_phases (es : List Nat) :
    runWorld ops es w =
      next_frame_pose ops es (next_frame_integration ops es w) := rfl

theorem runWorld_nv (es : List Nat) (x : Nat) (hnd : es.Nodup) :
    (runWorld ops es w).next_velocities x =
      if x ∈ es then integ_nv_after ops w x else w.next_velocities x := by
  rw [runWorld_phases ops w es,
    (next_frame_pose_misc ops (next_frame_integration ops es w) es).2.2.2.2.2.1]
  exact next_frame_integration_nv ops es x w hnd

theorem runWorld_forces (es : List Nat) (x : Nat) (hnd : es.Nodup) :
    (runWorld ops es w).forces x =
      if x ∈ es then integ_forces_after ops w x else w.forces x := by
  rw [runWorld_phases ops w es,
    (next_frame_pose_misc ops (next_frame_integration ops es w) es).2.2.2.2.2.2]
  exact next_frame_integration_forces ops es x w hnd

theorem runWorld_np (es : List Nat) (x : Nat) (hnd : es.Nodup) :
    (runWorld ops es w).next_poses x =
      if x ∈ es then pose_np_after ops (next_frame_integration ops es w) x
      else w.next_poses x := by
  rw [runWorld_phases ops w es,
    next_frame_pose_np ops es x (next_frame_integration ops es w) hnd,
    (next_frame_integration_misc ops w es).2.2.2.2.2]

theorem runWorld_misc (es : List Nat) :
    (runWorld ops es w).delta_seconds = w.delta_seconds ∧
    (runWorld ops es w).params = w.params ∧
    (runWorld ops es w).physical_entity = w.physical_entity ∧
    (runWorld ops es w).masses = w.masses ∧
    (runWorld ops es w).poses = w.poses := by
  rw [runWorld_phases ops w es]
  obtain ⟨p1, p2, p3, p4, p5, _, _⟩ :=
    next_frame_pose_misc ops (next_frame_integration ops es w) es
  obtain ⟨i1, i2, i3, i4, i5, _⟩ := next_frame_integration_misc ops w es
  exact ⟨p1.trans i1, p2.trans i2, p3.trans i3, p4.trans i4, p5.trans i5⟩

theorem integ_step_poses_irrelevant (a : Nat)
    (ps : Nat → Option (BodyPose Pt R)) :
    next_frame_integration_step ops { w with poses := ps } a =
      { next_frame_integration_step ops w a with poses := ps } := by
  have hres : integ_result ops { w with poses := ps } a = integ_result ops w a :=
    integ_result_congr ops w { w with poses := ps } a rfl rfl rfl rfl rfl rfl rfl
  unfold next_frame_integration_step
  rw [hres]
  cases integ_result ops w a with
  | none => rfl
  | some pr => rfl

theorem integ_poses_irrelevant (es : List Nat)
    (ps : Nat → Option (BodyPose Pt R)) :
    next_frame_integration ops es { w with poses := ps } =
      { next_frame_integration ops es w with poses := ps } := by
  induction es generalizing w with
  | nil => rfl
  | cons a rest ih =>
    calc next_frame_integration ops (a :: rest) { w with poses := ps }
        = next_frame_integration ops rest
            (next_frame_integration_step ops { w with poses := ps } a) := rfl
      _ = next_frame_integration ops rest
            { next_frame_integration_step ops w a with poses := ps } := by
          rw [integ_step_poses_irrelevant ops w a ps]
      _ = { next_frame_integration ops rest
              (next_frame_integration_step ops w a) with poses := ps } :=
          ih (next_frame_integration_step ops w a)
      _ = { next_frame_integration ops (a :: rest) w with poses := ps } := rfl

/-- The zero-element laws of the numeric abstraction that the no-force
invariance relies on: dividing the zero force by a mass, scaling zero by
the time step, adding zero, and applying an inverse inertia to a zero
torque all behave as in any vector space. Every faithful instantiation
(cgmath vectors over a field, scalars, quaternion angular maps) satisfies
them; IEEE floats satisfy them exactly as well (`0/m = 0`, `x + 0 = x`). -/
structure ZeroLaws (ops : Ops S Lin A I R Pt) : Prop where
  divLin_zero : ∀ s, ops.divLinS ops.zeroLin s = ops.zeroLin
  mulLin_zero : ∀ s, ops.mulLinS ops.zeroLin s = ops.zeroLin
  addLin_zero_right : ∀ v, ops.addLin v ops.zeroLin = v
  inverseApply_zero : ∀ i r, ops.inverseApply i r ops.zeroA = ops.zeroA
  mulA_zero : ∀ s, ops.mulAS ops.zeroA s = ops.zeroA
  addA_zero_right : ∀ a, ops.addA a ops.zeroA = a

/-- A concrete one-dimensional instantiation over the integers, used to
evaluate the model on explicit worlds. -/
def intOps : Ops Int Int Int Int Int Int where
  addLin := fun a b => a + b
  mulLinS := fun a s => a * s
  divLinS := fun a s => a / s
  zeroLin := 0
  addA := fun a b => a + b
  mulAS := fun a s => a * s
  zeroA := 0
  inverseApply := fun i _ a => i * a
  addPt := fun p v => p + v
  applyAngular := fun a s => a * s
  compose := fun r dr => r + dr

theorem intOps_zeroLaws : ZeroLaws intOps := by
  constructor <;> intros <;> simp [intOps]

/-- A world whose sole entity `0` carries every component the system ever
touches. -/
def wAll : WorldState Int Int Int Int Int Int where
  delta_seconds := 2
  params := ⟨3⟩
  physical_entity := fun _ => true
  masses := fun _ => some ⟨1, 5⟩
  poses := fun _ => some ⟨10, 1⟩
  next_velocities := fun _ => some ⟨⟨4, 6⟩⟩
  next_poses := fun _ => some ⟨⟨20, 7⟩⟩
  forces := fun _ => some ⟨8, 9⟩

/-- Like `wAll` but entity `0` has no next-frame pose slot. -/
def wNoNextPose : WorldState Int Int Int Int Int Int where
  delta_seconds := 1
  params := ⟨0⟩
  physical_entity := fun _ => true
  masses := fun _ => some ⟨1, 1⟩
  poses := fun _ => some ⟨0, 0⟩
  next_velocities := fun _ => some ⟨⟨0, 0⟩⟩
  next_poses := fun _ => none
  forces := fun _ => some ⟨1, 0⟩

/-- Like `wAll` but entity `0` lacks the dynamic-body marker. -/
def wNoMarker : WorldState Int Int Int Int Int Int where
  delta_seconds := 1
  params := ⟨0⟩
  physical_entity := fun _ => false
  masses := fun _ => some ⟨1, 1⟩
  poses := fun _ => some ⟨0, 0⟩
  next_velocities := fun _ => some ⟨⟨1, 0⟩⟩
  next_poses := fun _ => some ⟨⟨5, 0⟩⟩
  forces := fun _ => some ⟨0, 0⟩

/-- Like `wAll` but entity `0` has no mass/inertia component. -/
def wNoMass : WorldState Int Int Int Int Int Int where
  delta_seconds := 1
  params := ⟨0⟩
  physical_entity := fun _ => true
  masses := fun _ => none
  poses := fun _ => some ⟨0, 0⟩
  next_velocities := fun _ => some ⟨⟨1, 0⟩⟩
  next_poses := fun _ => some ⟨⟨5, 0⟩⟩
  forces := fun _ => some ⟨0, 0⟩

/-- A fully populated world with zero accumulated force/torque and zero
gravity. -/
def wZeroForce : WorldState Int Int Int Int Int Int where
  delta_seconds := 2
  params := ⟨0⟩
  physical_entity := fun _ => true
  masses := fun _ => some ⟨3, 4⟩
  poses := fun _ => some ⟨10, 1⟩
  next_velocities := fun _ => some ⟨⟨5, 6⟩⟩
  next_poses := fun _ => some ⟨⟨77, 8⟩⟩
  forces := fun _ => some ⟨0, 0⟩

/-- Claim C1, refuted as stated: entity `0` possesses the dynamic-body
marker, mass/inertia, a current pose, a next-frame velocity slot and a
force accumulator — every component the claim's eligibility set demands —
yet the force-integration phase does not set its next-frame linear velocity
to `velocity.linear + (force / mass + gravity) * dt = 0 + (1/1 + 0)*1`,
because the source joins the force phase over the next-frame pose storage
as well, and entity `0` has no next-frame pose. -/
theorem claim1_counterexample :
    wNoNextPose.physical_entity 0 = true ∧
    wNoNextPose.masses 0 = some ⟨1, 1⟩ ∧
    wNoNextPose.poses 0 = some ⟨0, 0⟩ ∧
    wNoNextPose.next_velocities 0 = some ⟨⟨0, 0⟩⟩ ∧
    wNoNextPose.forces 0 = some ⟨1, 0⟩ ∧
    (next_frame_integration intOps [0] wNoNextPose).next_velocities 0 ≠
      some ⟨⟨0 + (1 / 1 + 0) * 1, 0 + 1 * 0 * 1⟩⟩ := by
  decide

/-- Claim C1, amended: for every entity possessing the dynamic-body marker,
mass/inertia, current pose, **a next-frame pose slot**, a next-frame
velocity slot and a force accumulator, one invocation of the
force-integration phase sets `next_velocity.linear` to
`velocity.linear + (accumulator.force / mass + W.gravity) * dt` and
`next_velocity.angular` to
`velocity.angular + inertia.inverse_apply(accumulator.torque) * dt`, the
velocity read being the entity's own prior next-frame velocity slot. -/
theorem claim1_amended (es : List Nat) (e : Nat)
    (m : Mass S I) (p : BodyPose Pt R) (v : NextFrame (Velocity Lin A))
    (q : NextFrame (BodyPose Pt R)) (f : ForceAccumulator Lin A)
    (hnd : es.Nodup) (he : e ∈ es)
    (hmk : w.physical_entity e = true)
    (hma : w.masses e = some m)
    (_hp : w.poses e = some p)
    (hnv : w.next_velocities e = some v)
    (hnp : w.next_poses e = some q)
    (hf : w.forces e = some f) :
    (next_frame_integration ops es w).next_velocities e =
      some ⟨⟨ops.addLin v.value.linear
          (ops.mulLinS (ops.addLin (ops.divLinS f.force m.mass)
            w.params.gravity) w.delta_seconds),
        ops.addA v.value.angular
          (ops.mulAS (ops.inverseApply m.inertia q.value.orientation f.torque)
            w.delta_seconds)⟩⟩ := by
  rw [next_frame_integration_nv ops es e w hnd]
  simp [he, integ_nv_after, integ_result, hmk, hma, hnv, hnp, hf]

/-- Witness for the amended C1, on a fully populated concrete world:
`4 + (8/1 + 3)*2 = 26` and `6 + (5*9)*2 = 96`. -/
theorem claim1_witness :
    ([0] : List Nat).Nodup ∧ (0 : Nat) ∈ [0] ∧
    wAll.physical_entity 0 = true ∧ wAll.masses 0 = some ⟨1, 5⟩ ∧
    wAll.poses 0 = some ⟨10, 1⟩ ∧ wAll.next_velocities 0 = some ⟨⟨4, 6⟩⟩ ∧
    wAll.next_poses 0 = some ⟨⟨20, 7⟩⟩ ∧ wAll.forces 0 = some ⟨8, 9⟩ ∧
    (next_frame_integration intOps [0] wAll).next_velocities 0 =
      some ⟨⟨26, 96⟩⟩ := by
  refine ⟨by decide, by decide, rfl, rfl, rfl, rfl, rfl, rfl, ?_⟩
  rw [claim1_amended intOps wAll [0] 0 ⟨1, 5⟩ ⟨10, 1⟩ ⟨⟨4, 6⟩⟩ ⟨⟨20, 7⟩⟩
    ⟨8, 9⟩ (by decide) (by decide) rfl rfl rfl rfl rfl rfl]
  decide

/-- Claim C2, refuted as stated: entity `0` possesses a next-frame
velocity, a current pose and a next-frame pose slot — the claim's whole
eligibility set — yet the pose-integration phase does not set its
next-frame position to `current_position + v·dt = 0 + 1*1`, because the
source joins the pose phase over the `PhysicalEntity` marker storage as
well, and entity `0` lacks the marker. -/
theorem claim2_counterexample :
    wNoMarker.next_velocities 0 = some ⟨⟨1, 0⟩⟩ ∧
    wNoMarker.poses 0 = some ⟨0, 0⟩ ∧
    wNoMarker.next_poses 0 = some ⟨⟨5, 0⟩⟩ ∧
    (next_frame_pose intOps [0] wNoMarker).next_poses 0 ≠
      some ⟨⟨0 + 1 * 1, 0 + 0 * 1⟩⟩ := by
  decide

/-- Claim C2, amended: for every entity possessing a next-frame velocity,
a current pose, a next-frame pose slot **and the dynamic-body marker**,
one invocation of the pose-integration phase sets `next_pose.position` to
`current_pose.position + next_velocity.linear * dt` and
`next_pose.orientation` to the current orientation composed with the
rotation increment `apply_angular(next_velocity.angular, dt)` under the
rotation representation's own composition rule. -/
theorem claim2_amended (es : List Nat) (e : Nat)
    (v : NextFrame (Velocity Lin A)) (p : BodyPose Pt R)
    (q : NextFrame (BodyPose Pt R))
    (hnd : es.Nodup) (he : e ∈ es)
    (hmk : w.physical_entity e = true)
    (hnv : w.next_velocities e = some v)
    (hp : w.poses e = some p)
    (hnp : w.next_poses e = some q) :
    (next_frame_pose ops es w).next_poses e =
      some ⟨⟨ops.addPt p.position (ops.mulLinS v.value.linear w.delta_seconds),
        ops.compose p.orientation
          (ops.applyAngular v.value.angular w.delta_seconds)⟩⟩ := by
  rw [next_frame_pose_np ops es e w hnd]
  simp [he, pose_np_after, pose_result, hmk, hnv, hp, hnp]

/-- Witness for the amended C2 on `wAll`: `10 + 4*2 = 18`, `1 + 6*2 = 13`. -/
theorem claim2_witness :
    ([0] : List Nat).Nodup ∧ (0 : Nat) ∈ [0] ∧
    wAll.physical_entity 0 = true ∧ wAll.next_velocities 0 = some ⟨⟨4, 6⟩⟩ ∧
    wAll.poses 0 = some ⟨10, 1⟩ ∧ wAll.next_poses 0 = some ⟨⟨20, 7⟩⟩ ∧
    (next_frame_pose intOps [0] wAll).next_poses 0 = some ⟨⟨18, 13⟩⟩ := by
  refine ⟨by decide, by decide, rfl, rfl, rfl, rfl, ?_⟩
  rw [claim2_amended intOps wAll [0] 0 ⟨⟨4, 6⟩⟩ ⟨10, 1⟩ ⟨⟨20, 7⟩⟩
    (by decide) (by decide) rfl rfl rfl rfl]
  decide

/-- C3: within one invocation of `run`, the force phase completes before
the pose phase, so the next-frame pose of an entity eligible for both
phases is computed from the post-force-phase velocity
`v1 = v0 + (F/m + g)·dt` (and its angular counterpart), never from the
pre-phase velocity `v0`: the resulting position is exactly
`p + v1·dt`. -/
theorem claim3_phase_ordering (es : List Nat) (e : Nat)
    (m : Mass S I) (p : BodyPose Pt R) (v : NextFrame (Velocity Lin A))
    (q : NextFrame (BodyPose Pt R)) (f : ForceAccumulator Lin A)
    (hnd : es.Nodup) (he : e ∈ es)
    (hmk : w.physical_entity e = true)
    (hma : w.masses e = some m)
    (hp : w.poses e = some p)
    (hnv : w.next_velocities e = some v)
    (hnp : w.next_poses e = some q)
    (hf : w.forces e = some f) :
    (runWorld ops es w).next_poses e =
      some ⟨⟨ops.addPt p.position (ops.mulLinS
          (ops.addLin v.value.linear
            (ops.mulLinS (ops.addLin (ops.divLinS f.force m.mass)
              w.params.gravity) w.delta_seconds))
          w.delta_seconds),
        ops.compose p.orientation (ops.applyAngular
          (ops.addA v.value.angular
            (ops.mulAS (ops.inverseApply m.inertia q.value.orientation
              f.torque) w.delta_seconds))
          w.delta_seconds)⟩⟩ := by
  obtain ⟨hd, hpar, hmk2, hms, hps, hnp2⟩ := next_frame_integration_misc ops w es
  have hnv1 : (next_frame_integration ops es w).next_velocities e =
      some ⟨⟨ops.addLin v.value.linear
          (ops.mulLinS (ops.addLin (ops.divLinS f.force m.mass)
            w.params.gravity) w.delta_seconds),
        ops.addA v.value.angular
          (ops.mulAS (ops.inverseApply m.inertia q.value.orientation f.torque)
            w.delta_seconds)⟩⟩ := by
    rw [next_frame_integration_nv ops es e w hnd]
    simp [he, integ_nv_after, integ_result, hmk, hma, hnv, hnp, hf]
  rw [runWorld_np ops w es e hnd]
  simp [he, pose_np_after, pose_result, hnv1, hmk2, hps, hnp2, hd, hmk, hp,
    hnp]

/-- Witness for C3 on `wAll`: the post-force velocity is `(26, 96)`, so the
next-frame pose is `(10 + 26*2, 1 + 96*2) = (62, 193)` — computed from
`v1`, not from the pre-phase `(4, 6)`. -/
theorem claim3_witness :
    ([0] : List Nat).Nodup ∧ (0 : Nat) ∈ [0] ∧
    wAll.physical_entity 0 = true ∧ wAll.masses 0 = some ⟨1, 5⟩ ∧
    wAll.poses 0 = some ⟨10, 1⟩ ∧ wAll.next_velocities 0 = some ⟨⟨4, 6⟩⟩ ∧
    wAll.next_poses 0 = some ⟨⟨20, 7⟩⟩ ∧ wAll.forces 0 = some ⟨8, 9⟩ ∧
    (runWorld intOps [0] wAll).next_poses 0 = some ⟨⟨62, 193⟩⟩ := by
  refine ⟨by decide, by decide, rfl, rfl, rfl, rfl, rfl, rfl, ?_⟩
  rw [claim3_phase_ordering intOps wAll [0] 0 ⟨1, 5⟩ ⟨10, 1⟩ ⟨⟨4, 6⟩⟩
    ⟨⟨20, 7⟩⟩ ⟨8, 9⟩ (by decide) (by decide) rfl rfl rfl rfl rfl rfl]
  decide

/-- C4: after one invocation of the system, every entity that was eligible
for the force-integration phase (present in the marker, mass, next-frame
velocity, next-frame pose and force-accumulator storages) has its force
and torque accumulator read back as exactly zero, regardless of the
accumulator's pre-invocation value `f`. -/
theorem claim4_accumulator_reset (es : List Nat) (e : Nat)
    (m : Mass S I) (v : NextFrame (Velocity Lin A))
    (q : NextFrame (BodyPose Pt R)) (f : ForceAccumulator Lin A)
    (hnd : es.Nodup) (he : e ∈ es)
    (hmk : w.physical_entity e = true)
    (hma : w.masses e = some m)
    (hnv : w.next_velocities e = some v)
    (hnp : w.next_poses e = some q)
    (hf : w.forces e = some f) :
    (runWorld ops es w).forces e = some ⟨ops.zeroLin, ops.zeroA⟩ := by
  rw [runWorld_forces ops w es e hnd]
  simp [he, integ_forces_after, integ_result, hmk, hma, hnv, hnp, hf]

/-- Witness for C4 on `wAll`, whose accumulator starts at `(8, 9)`. -/
theorem claim4_witness :
    ([0] : List Nat).Nodup ∧ (0 : Nat) ∈ [0] ∧
    wAll.physical_entity 0 = true ∧ wAll.masses 0 = some ⟨1, 5⟩ ∧
    wAll.next_velocities 0 = some ⟨⟨4, 6⟩⟩ ∧
    wAll.next_poses 0 = some ⟨⟨20, 7⟩⟩ ∧ wAll.forces 0 = some ⟨8, 9⟩ ∧
    (runWorld intOps [0] wAll).forces 0 = some ⟨0, 0⟩ := by
  refine ⟨by decide, by decide, rfl, rfl, rfl, rfl, rfl, ?_⟩
  rw [claim4_accumulator_reset intOps wAll [0] 0 ⟨1, 5⟩ ⟨⟨4, 6⟩⟩ ⟨⟨20, 7⟩⟩
    ⟨8, 9⟩ (by decide) (by decide) rfl rfl rfl rfl rfl]
  decide

/-- Claim C5, refuted as stated: entity `0` lacks the mass/inertia
component, yet one invocation of the system does not leave its next-frame
pose slot unchanged — the pose phase does not join over the mass storage,
so it still advances the next-frame pose of a marked entity that has a
next-frame velocity, a current pose and a next-frame pose slot. -/
theorem claim5_counterexample :
    wNoMass.masses 0 = none ∧
    (runWorld intOps [0] wNoMass).next_poses 0 ≠ wNoMass.next_poses 0 := by
  decide

/-- Claim C5, amended: an entity lacking the dynamic-body marker is left
with its next-frame velocity, next-frame pose and force accumulator
unchanged; an entity lacking mass/inertia is left with its next-frame
velocity and force accumulator unchanged (but its next-frame pose may
still be rewritten by the pose phase, which does not require mass). -/
theorem claim5_amended (es : List Nat) (e : Nat) (hnd : es.Nodup) :
    (w.physical_entity e = false →
      (runWorld ops es w).next_velocities e = w.next_velocities e ∧
      (runWorld ops es w).next_poses e = w.next_poses e ∧
      (runWorld ops es w).forces e = w.forces e) ∧
    (w.masses e = none →
      (runWorld ops es w).next_velocities e = w.next_velocities e ∧
      (runWorld ops es w).forces e = w.forces e) := by
  constructor
  · intro hmk
    have hres : integ_result ops w e = none := by
      simp [integ_result, hmk]
    have h1 : integ_nv_after ops w e = w.next_velocities e := by
      unfold integ_nv_after; rw [hres]
    have h2 : integ_forces_after ops w e = w.forces e := by
      unfold integ_forces_after; rw [hres]
    obtain ⟨hd, hpar, hmk2, hms, hps, hnp2⟩ :=
      next_frame_integration_misc ops w es
    have hpres : pose_result ops (next_frame_integration ops es w) e =
        none := by
      simp [pose_result, hmk2, hmk]
    have h3 : pose_np_after ops (next_frame_integration ops es w) e =
        w.next_poses e := by
      unfold pose_np_after; rw [hpres, hnp2]
    refine ⟨?_, ?_, ?_⟩
    · rw [runWorld_nv ops w es e hnd]
      by_cases hx : e ∈ es <;> simp [hx, h1]
    · rw [runWorld_np ops w es e hnd]
      by_cases hx : e ∈ es <;> simp [hx, h3]
    · rw [runWorld_forces ops w es e hnd]
      by_cases hx : e ∈ es <;> simp [hx, h2]
  · intro hma
    have hres : integ_result ops w e = none := by
      unfold integ_result
      rw [hma]
      split
      · cases w.next_velocities e <;> cases w.next_poses e <;>
          cases w.forces e <;> rfl
      · rfl
    have h1 : integ_nv_after ops w e = w.next_velocities e := by
      unfold integ_nv_after; rw [hres]
    have h2 : integ_forces_after ops w e = w.forces e := by
      unfold integ_forces_after; rw [hres]
    constructor
    · rw [runWorld_nv ops w es e hnd]
      by_cases hx : e ∈ es <;> simp [hx, h1]
    · rw [runWorld_forces ops w es e hnd]
      by_cases hx : e ∈ es <;> simp [hx, h2]

/-- Witness for the amended C5: a markerless entity keeps all three
mutable slots; a massless marked entity keeps its velocity and
accumulator. -/
theorem claim5_witness :
    ([0] : List Nat).Nodup ∧
    wNoMarker.physical_entity 0 = false ∧ wNoMass.masses 0 = none ∧
    ((runWorld intOps [0] wNoMarker).next_velocities 0 =
        wNoMarker.next_velocities 0 ∧
      (runWorld intOps [0] wNoMarker).next_poses 0 =
        wNoMarker.next_poses 0 ∧
      (runWorld intOps [0] wNoMarker).forces 0 = wNoMarker.forces 0) ∧
    ((runWorld intOps [0] wNoMass).next_velocities 0 =
        wNoMass.next_velocities 0 ∧
      (runWorld intOps [0] wNoMass).forces 0 = wNoMass.forces 0) :=
  ⟨by decide, rfl, rfl,
    (claim5_amended intOps wNoMarker [0] 0 (by decide)).1 rfl,
    (claim5_amended intOps wNoMass [0] 0 (by decide)).2 rfl⟩

/-- C6: the force phase's eligible set is the join of the next-frame
velocity, next-frame pose, force-accumulator, mass and marker storages.
First conjunct: an entity with no next-frame pose component is skipped —
its velocity is not updated and its accumulator is not reset. Second
conjunct: for an eligible entity the angular update applies the inverse
inertia at the orientation of the entity's **next-frame** pose `q`. Third
conjunct: the force phase never reads the current-pose storage at all —
replacing it by an arbitrary storage `ps` leaves the phase's velocity
output unchanged. -/
theorem claim6_join_semantics (es : List Nat) (e : Nat) (hnd : es.Nodup) :
    (w.next_poses e = none →
      (next_frame_integration ops es w).next_velocities e =
        w.next_velocities e ∧
      (next_frame_integration ops es w).forces e = w.forces e) ∧
    (∀ (m : Mass S I) (v : NextFrame (Velocity Lin A))
        (q : NextFrame (BodyPose Pt R)) (f : ForceAccumulator Lin A),
      e ∈ es → w.physical_entity e = true → w.masses e = some m →
      w.next_velocities e = some v → w.next_poses e = some q →
      w.forces e = some f →
      (next_frame_integration ops es w).next_velocities e =
        some ⟨⟨ops.addLin v.value.linear
            (ops.mulLinS (ops.addLin (ops.divLinS f.force m.mass)
              w.params.gravity) w.delta_seconds),
          ops.addA v.value.angular
            (ops.mulAS (ops.inverseApply m.inertia q.value.orientation
              f.torque) w.delta_seconds)⟩⟩) ∧
    (∀ ps : Nat → Option (BodyPose Pt R),
      (next_frame_integration ops es
          { w with poses := ps }).next_velocities =
        (next_frame_integration ops es w).next_velocities) := by
  refine ⟨?_, ?_, ?_⟩
  · intro hnp
    have hres : integ_result ops w e = none := by
      unfold integ_result
      rw [hnp]
      split
      · cases w.masses e <;> cases w.next_velocities e <;>
          cases w.forces e <;> rfl
      · rfl
    have h1 : integ_nv_after ops w e = w.next_velocities e := by
      unfold integ_nv_after; rw [hres]
    have h2 : integ_forces_after ops w e = w.forces e := by
      unfold integ_forces_after; rw [hres]
    constructor
    · rw [next_frame_integration_nv ops es e w hnd]
      by_cases hx : e ∈ es <;> simp [hx, h1]
    · rw [next_frame_integration_forces ops es e w hnd]
      by_cases hx : e ∈ es <;> simp [hx, h2]
  · intro m v q f he hmk hma hnv hnp hf
    rw [next_frame_integration_nv ops es e w hnd]
    simp [he, integ_nv_after, integ_result, hmk, hma, hnv, hnp, hf]
  · intro ps
    rw [integ_poses_irrelevant ops w es ps]

/-- Witness for C6: entity `0` of `wNoNextPose` is skipped whole; entity
`0` of `wAll` gets the angular update `6 + (5*9)*2 = 96` computed at its
next-frame orientation `7`; and replacing the current-pose storage of
`wAll` by an empty one leaves the force phase's output unchanged. -/
theorem claim6_witness :
    ([0] : List Nat).Nodup ∧ wNoNextPose.next_poses 0 = none ∧
    ((next_frame_integration intOps [0] wNoNextPose).next_velocities 0 =
        wNoNextPose.next_velocities 0 ∧
      (next_frame_integration intOps [0] wNoNextPose).forces 0 =
        wNoNextPose.forces 0) ∧
    ((0 : Nat) ∈ [0] ∧ wAll.physical_entity 0 = true ∧
      wAll.masses 0 = some ⟨1, 5⟩ ∧
      wAll.next_velocities 0 = some ⟨⟨4, 6⟩⟩ ∧
      wAll.next_poses 0 = some ⟨⟨20, 7⟩⟩ ∧ wAll.forces 0 = some ⟨8, 9⟩) ∧
    (next_frame_integration intOps [0] wAll).next_velocities 0 =
      some ⟨⟨26, 96⟩⟩ ∧
    (next_frame_integration intOps [0]
        { wAll with poses := fun _ => none }).next_velocities =
      (next_frame_integration intOps [0] wAll).next_velocities := by
  refine ⟨by decide, rfl, ?_, ⟨by decide, rfl, rfl, rfl, rfl, rfl⟩, ?_, ?_⟩
  · exact (claim6_join_semantics intOps wNoNextPose [0] 0 (by decide)).1 rfl
  · have h := (claim6_join_semantics intOps wAll [0] 0 (by decide)).2.1
      ⟨1, 5⟩ ⟨⟨4, 6⟩⟩ ⟨⟨20, 7⟩⟩ ⟨8, 9⟩ (by decide) rfl rfl rfl rfl rfl
    rw [h]
    decide
  · exact (claim6_join_semantics intOps wAll [0] 0 (by decide)).2.2
      (fun _ => none)

/-- C7: for an entity eligible for both phases whose accumulated force and
torque are the zero elements and whose world's ambient acceleration is the
zero element, one invocation leaves the next-frame velocity exactly equal
to its pre-phase value and sets the next-frame pose exactly to the current
pose advanced by that velocity over `dt` (in particular
`next position = current position + velocity.linear * dt`). -/
theorem claim7_no_force_invariance (hz : ZeroLaws ops)
    (es : List Nat) (e : Nat)
    (m : Mass S I) (p : BodyPose Pt R) (v : NextFrame (Velocity Lin A))
    (q : NextFrame (BodyPose Pt R))
    (hnd : es.Nodup) (he : e ∈ es)
    (hmk : w.physical_entity e = true)
    (hma : w.masses e = some m)
    (hp : w.poses e = some p)
    (hnv : w.next_velocities e = some v)
    (hnp : w.next_poses e = some q)
    (hf : w.forces e = some ⟨ops.zeroLin, ops.zeroA⟩)
    (hg : w.params.gravity = ops.zeroLin) :
    (runWorld ops es w).next_velocities e = w.next_velocities e ∧
    (runWorld ops es w).next_poses e =
      some ⟨⟨ops.addPt p.position (ops.mulLinS v.value.linear
          w.delta_seconds),
        ops.compose p.orientation
          (ops.applyAngular v.value.angular w.delta_seconds)⟩⟩ := by
  have hres : integ_result ops w e =
      some (v, ⟨ops.zeroLin, ops.zeroA⟩) := by
    simp [integ_result, hmk, hma, hnv, hnp, hf, hg, hz.divLin_zero,
      hz.addLin_zero_right, hz.mulLin_zero, hz.inverseApply_zero,
      hz.mulA_zero, hz.addA_zero_right]
  have h1 : integ_nv_after ops w e = some v := by
    unfold integ_nv_after; rw [hres]
  have hnv1 : (next_frame_integration ops es w).next_velocities e =
      some v := by
    rw [next_frame_integration_nv ops es e w hnd]
    simp [he, h1]
  obtain ⟨hd, hpar, hmk2, hms, hps, hnp2⟩ :=
    next_frame_integration_misc ops w es
  constructor
  · rw [runWorld_nv ops w es e hnd]
    simp [he, h1, hnv]
  · rw [runWorld_np ops w es e hnd]
    simp [he, pose_np_after, pose_result, hnv1, hmk2, hps, hnp2, hd, hmk,
      hp, hnp]

/-- Witness for C7 on `wZeroForce` (zero force, torque and gravity): the
velocity `(5, 6)` survives unchanged and the pose becomes
`(10 + 5*2, 1 + 6*2) = (20, 13)`. -/
theorem claim7_witness :
    ([0] : List Nat).Nodup ∧ (0 : Nat) ∈ [0] ∧
    wZeroForce.physical_entity 0 = true ∧
    wZeroForce.masses 0 = some ⟨3, 4⟩ ∧
    wZeroForce.poses 0 = some ⟨10, 1⟩ ∧
    wZeroForce.next_velocities 0 = some ⟨⟨5, 6⟩⟩ ∧
    wZeroForce.next_poses 0 = some ⟨⟨77, 8⟩⟩ ∧
    wZeroForce.forces 0 = some ⟨0, 0⟩ ∧
    wZeroForce.params.gravity = 0 ∧
    ((runWorld intOps [0] wZeroForce).next_velocities 0 =
        wZeroForce.next_velocities 0 ∧
      (runWorld intOps [0] wZeroForce).next_poses 0 =
        some ⟨⟨20, 13⟩⟩) := by
  refine ⟨by decide, by decide, rfl, rfl, rfl, rfl, rfl, rfl, rfl, ?_⟩
  have h := claim7_no_force_invariance intOps wZeroForce intOps_zeroLaws
    [0] 0 ⟨3, 4⟩ ⟨10, 1⟩ ⟨⟨5, 6⟩⟩ ⟨⟨77, 8⟩⟩ (by decide) (by decide)
    rfl rfl rfl rfl rfl rfl rfl
  exact ⟨h.1, by rw [h.2]; decide⟩

/-- C8: the per-entity results of one invocation are independent of the
order in which the joined entities are iterated: for any permutation of
the (duplicate-free) entity ordering, every entity's next-frame velocity,
next-frame pose and accumulator come out identical. -/
theorem claim8_order_independence (es₁ es₂ : List Nat) (x : Nat)
    (hperm : es₁.Perm es₂) (hnd : es₁.Nodup) :
    (runWorld ops es₁ w).next_velocities x =
      (runWorld ops es₂ w).next_velocities x ∧
    (runWorld ops es₁ w).next_poses x =
      (runWorld ops es₂ w).next_poses x ∧
    (runWorld ops es₁ w).forces x = (runWorld ops es₂ w).forces x := by
  have hnd2 : es₂.Nodup := hperm.nodup_iff.mp hnd
  have hmem : x ∈ es₁ ↔ x ∈ es₂ := hperm.mem_iff
  obtain ⟨hd1, hpar1, hmk1, hms1, hps1, hnp1⟩ :=
    next_frame_integration_misc ops w es₁
  obtain ⟨hd2, hpar2, hmk2, hms2, hps2, hnp2⟩ :=
    next_frame_integration_misc ops w es₂
  refine ⟨?_, ?_, ?_⟩
  · rw [runWorld_nv ops w es₁ x hnd, runWorld_nv ops w es₂ x hnd2]
    by_cases hx : x ∈ es₁
    · have hx2 : x ∈ es₂ := hmem.mp hx
      simp [hx, hx2]
    · have hx2 : x ∉ es₂ := fun h => hx (hmem.mpr h)
      simp [hx, hx2]
  · have hnv12 : (next_frame_integration ops es₁ w).next_velocities x =
        (next_frame_integration ops es₂ w).next_velocities x := by
      rw [next_frame_integration_nv ops es₁ x w hnd,
        next_frame_integration_nv ops es₂ x w hnd2]
      by_cases hx : x ∈ es₁
      · have hx2 : x ∈ es₂ := hmem.mp hx
        simp [hx, hx2]
      · have hx2 : x ∉ es₂ := fun h => hx (hmem.mpr h)
        simp [hx, hx2]
    have hres12 : pose_result ops (next_frame_integration ops es₁ w) x =
        pose_result ops (next_frame_integration ops es₂ w) x :=
      pose_result_congr ops (next_frame_integration ops es₂ w)
        (next_frame_integration ops es₁ w) x
        (by rw [hmk1, hmk2]) hnv12 (by rw [hps1, hps2])
        (by rw [hnp1, hnp2]) (by rw [hd1, hd2])
    have hnpx : (next_frame_integration ops es₁ w).next_poses x =
        (next_frame_integration ops es₂ w).next_poses x := by
      rw [hnp1, hnp2]
    have hafter : pose_np_after ops (next_frame_integration ops es₁ w) x =
        pose_np_after ops (next_frame_integration ops es₂ w) x := by
      unfold pose_np_after; rw [hres12, hnpx]
    rw [runWorld_np ops w es₁ x hnd, runWorld_np ops w es₂ x hnd2]
    by_cases hx : x ∈ es₁
    · have hx2 : x ∈ es₂ := hmem.mp hx
      simp [hx, hx2, hafter]
    · have hx2 : x ∉ es₂ := fun h => hx (hmem.mpr h)
      simp [hx, hx2]
  · rw [runWorld_forces ops w es₁ x hnd, runWorld_forces ops w es₂ x hnd2]
    by_cases hx : x ∈ es₁
    · have hx2 : x ∈ es₂ := hmem.mp hx
      simp [hx, hx2]
    · have hx2 : x ∉ es₂ := fun h => hx (hmem.mpr h)
      simp [hx, hx2]

/-- Witness for C8: running the system over `wAll` with entity orderings
`[0, 1]` and `[1, 0]` gives entity `0` identical slots. -/
theorem claim8_witness :
    ([0, 1] : List Nat).Perm [1, 0] ∧ ([0, 1] : List Nat).Nodup ∧
    ((runWorld intOps [0, 1] wAll).next_velocities 0 =
        (runWorld intOps [1, 0] wAll).next_velocities 0 ∧
      (runWorld intOps [0, 1] wAll).next_poses 0 =
        (runWorld intOps [1, 0] wAll).next_poses 0 ∧
      (runWorld intOps [0, 1] wAll).forces 0 =
        (runWorld intOps [1, 0] wAll).forces 0) :=
  ⟨List.Perm.swap 1 0 [], by decide,
    claim8_order_independence intOps wAll [0, 1] [1, 0] 0
      (List.Perm.swap 1 0 []) (by decide)⟩

/-- C9: one invocation never mutates the time source, the world
parameters, the dynamic-body markers, the mass/inertia storage or the
current-pose storage; its mutations are confined to the next-frame
velocity, next-frame pose and force-accumulator storages. -/
theorem claim9_frame_effect (es : List Nat) :
    (runWorld ops es w).delta_seconds = w.delta_seconds ∧
    (runWorld ops es w).params = w.params ∧
    (runWorld ops es w).physical_entity = w.physical_entity ∧
    (runWorld ops es w).masses = w.masses ∧
    (runWorld ops es w).poses = w.poses :=
  runWorld_misc ops w es

/-- C10: the system value carries no state: any two system values are
equal (the only field is the phantom marker), `run` returns the system
value unchanged and its effect on the world does not depend on it, and a
second invocation started from the returned system value behaves exactly
like one started fresh. -/
theorem claim10_stateless (s s' : NextFrameSetupSystem) (es : List Nat) :
    s = s' ∧
    (NextFrameSetupSystem.run s ops es w).1 = s ∧
    (NextFrameSetupSystem.run s ops es w).2 =
      (NextFrameSetupSystem.run s' ops es w).2 ∧
    (NextFrameSetupSystem.run
        (NextFrameSetupSystem.run s ops es w).1 ops es w).2 =
      (NextFrameSetupSystem.run s ops es w).2 := by
  obtain ⟨⟨⟩⟩ := s
  obtain ⟨⟨⟩⟩ := s'
  exact ⟨rfl, rfl, rfl, rfl⟩

end Rhusics
